import Mathlib

/-!
# Verification of `src/helper.ts` (listener registry and timed wait engine)

Shallow embedding of the concurrency-coordination primitives of `Helper`:
`addEventListener`, `removeEventListeners`, `waitForEvent`, `waitWithTimeout`.

JavaScript's single-threaded event loop is modelled by a *trace* of
occurrences (event emissions on the watched event name, the armed timer
firing, the abort promise resolving).  A promise is a settle-once cell:
the first settlement wins, later settlement attempts are no-ops — exactly
the semantics `waitForEvent` relies on for its `Promise.race` of the
listener-driven promise, the timeout rejection and the abort promise.
Timeouts are naturals in milliseconds; `if (timeout)` is truthy iff the
value is nonzero.
-/

/-- A JavaScript runtime value, as far as `helper.ts` discriminates them:
either an `Error` instance (with a class name and a message) or a
non-`Error` value (represented by a numeric payload).  The only test the
code performs is `result instanceof Error`. -/
inductive JSValue where
  | error (name : String) (message : String)
  | value (n : Nat)
deriving DecidableEq, Repr

/-- The `instanceof Error` test of `waitForEvent`. -/
def JSValue.isError : JSValue → Bool
  | .error _ _ => true
  | .value _ => false

/-- Modelled from the spec: the `TimeoutError` class imported from
`./errors` is not under `src/`; per the spec's error-message contract it
is an `Error` subclass carrying the given message. -/
def mkTimeoutError (message : String) : JSValue :=
  JSValue.error "TimeoutError" message

/-- Outcome of one call of the caller-supplied predicate on an event
payload: it returns a boolean or throws a value. -/
inductive PredResult where
  | ok (b : Bool)
  | thrown (v : JSValue)
deriving DecidableEq, Repr

/-- `RegisteredListener` of `helper.ts`: the `{ emitter, eventName,
handler }` triple returned by `Helper.addEventListener`.  Emitters and
handler closures are identified by opaque ids. -/
structure RegisteredListener where
  emitter : Nat
  eventName : String
  handler : Nat
deriving DecidableEq, Repr

/-- Modelled from the spec: the Event Source contract (`platform.
EventEmitterType` is not under `src/`).  The world of live subscriptions
is the list of currently attached `(emitter, eventName, handler)`
triples; `emitter.on` appends, `emitter.removeListener` removes at most
one matching subscription and tolerates an absent one. -/
abbrev World := List RegisteredListener

/-- `Helper.addEventListener`: `emitter.on(eventName, handler)` and
return the `{ emitter, eventName, handler }` handle. -/
def addEventListener (w : World) (emitter : Nat) (eventName : String)
    (handler : Nat) : World × RegisteredListener :=
  let l : RegisteredListener := ⟨emitter, eventName, handler⟩
  (List.append w [l], l)

/-- `emitter.removeListener(eventName, handler)`: removes one matching
subscription if present, is a no-op otherwise. -/
def removeListener (w : World) (l : RegisteredListener) : World :=
  List.erase w l

/-- `Helper.removeEventListeners`: unsubscribes every handle of the batch
and then drains the batch in place (`listeners.splice(0, listeners.
length)`).  Returns the updated world and the drained batch. -/
def removeEventListeners (w : World) (batch : List RegisteredListener) :
    World × List RegisteredListener :=
  (batch.foldl removeListener w, [])

/-- A settlement of a promise: fulfilled with a value or rejected with a
thrown value. -/
inductive Settlement where
  | resolved (v : JSValue)
  | rejected (v : JSValue)
deriving DecidableEq, Repr

/-- One occurrence on the event loop while a `waitForEvent` call is
pending: the emitter emits the watched event with a payload, the armed
timeout timer fires, or the abort promise resolves with a value. -/
inductive Occurrence where
  | emit (payload : JSValue)
  | timerFire
  | abortResolve (v : JSValue)
deriving DecidableEq, Repr

/-- Ephemeral state of one pending `waitForEvent`: the settle-once cell
fed by all three completion sources (the listener's `resolveCallback` /
`rejectCallback`, the timeout rejection, and the abort promise, joined by
`Promise.race`), whether the timeout timer is still pending, and whether
the abort promise has already resolved (a promise resolves at most
once). -/
structure WaitState where
  raceCell : Option Settlement
  timerActive : Bool
  abortSettled : Bool
deriving DecidableEq, Repr

/-- Settle the race cell: a promise settles at most once, so this is a
no-op when the cell already holds a settlement. -/
def settleCell (st : WaitState) (s : Settlement) : WaitState :=
  match st.raceCell with
  | some _ => st
  | none => { st with raceCell := some s }

/-- One event-loop step of a pending `waitForEvent`.
`emit`: the registered listener runs — `predicate(event)` throwing rejects,
returning `false` keeps listening, returning `true` resolves with the
payload.  `timerFire`: only a still-pending armed timer fires; it rejects
with the `TimeoutError`.  `abortResolve`: the abort promise resolves (at
most once) and fulfills the race with its value. -/
def step (eventName : String) (predicate : JSValue → PredResult)
    (st : WaitState) : Occurrence → WaitState
  | .emit payload =>
    match predicate payload with
    | .ok false => st
    | .ok true => settleCell st (.resolved payload)
    | .thrown e => settleCell st (.rejected e)
  | .timerFire =>
    if st.timerActive then
      settleCell { st with timerActive := false }
        (.rejected (mkTimeoutError
          ("Timeout exceeded while waiting for " ++ eventName)))
    else st
  | .abortResolve v =>
    if st.abortSettled then st
    else settleCell { st with abortSettled := true } (.resolved v)

/-- Run a pending `waitForEvent` over a trace of occurrences. -/
def runTrace (eventName : String) (predicate : JSValue → PredResult)
    (st : WaitState) (trace : List Occurrence) : WaitState :=
  trace.foldl (step eventName predicate) st

/-- What the caller of `waitForEvent` observes, together with the final
resource state: the settlement that won the race (if any), the call's
outcome (`none` while the race is still pending, `some (.ok v)` for a
return, `some (.error e)` for a throw), the surviving subscriptions, the
timer state, and how many times cleanup ran / `removeListener` was
called. -/
structure WaitResult where
  settlement : Option Settlement
  outcome : Option (Except JSValue JSValue)
  subs : World
  timerActive : Bool
  cleanupCount : Nat
  listenerRemovals : Nat

/-- The code after the race: both `.then` branches run `cleanup()` once;
the fulfillment branch returns `r`, the rejection branch rethrows, and
finally `if (result instanceof Error) throw result; return result`. -/
def raceOutcome (s : Settlement) : Except JSValue JSValue :=
  match s with
  | .resolved r => if r.isError then .error r else .ok r
  | .rejected e => .error e

/-- `Helper.waitForEvent`: subscribe the predicate-driven listener, arm
the timer when `timeout` is truthy, run the event loop over the trace,
and — once the race settles — run cleanup (unsubscribe the listener,
`clearTimeout`) before the outcome is observed.  A race that never
settles leaves the call suspended: no outcome, no cleanup. -/
def waitForEvent (w : World) (emitter : Nat) (handler : Nat)
    (eventName : String) (predicate : JSValue → PredResult)
    (timeout : Nat) (trace : List Occurrence) : WaitResult :=
  let sub := addEventListener w emitter eventName handler
  let st0 : WaitState :=
    { raceCell := none, timerActive := timeout != 0, abortSettled := false }
  let st := runTrace eventName predicate st0 trace
  match st.raceCell with
  | none =>
    { settlement := none, outcome := none, subs := sub.1
      timerActive := st.timerActive, cleanupCount := 0
      listenerRemovals := 0 }
  | some s =>
    let cleaned := removeEventListeners sub.1 [sub.2]
    { settlement := some s, outcome := some (raceOutcome s)
      subs := cleaned.1, timerActive := false, cleanupCount := 1
      listenerRemovals := 1 }

/-- One occurrence on the event loop while a `waitWithTimeout` call is
pending: the wrapped promise settles, or the armed timer fires. -/
inductive WTOccurrence where
  | promiseSettle (s : Settlement)
  | timerFire
deriving DecidableEq, Repr

/-- State of one pending `waitWithTimeout` race. -/
structure WTState where
  raceCell : Option Settlement
  timerActive : Bool
deriving DecidableEq, Repr

/-- Settle-once for the `waitWithTimeout` race cell. -/
def settleWT (st : WTState) (s : Settlement) : WTState :=
  match st.raceCell with
  | some _ => st
  | none => { st with raceCell := some s }

/-- One event-loop step of `waitWithTimeout`: the wrapped promise's first
settlement feeds the race; the armed timer, on firing, rejects with the
eagerly-built `timeoutError`. -/
def stepWT (taskName : String) (timeout : Nat) (st : WTState) :
    WTOccurrence → WTState
  | .promiseSettle s => settleWT st s
  | .timerFire =>
    if st.timerActive then
      settleWT { st with timerActive := false }
        (.rejected (mkTimeoutError
          ("waiting for " ++ taskName ++ " failed: timeout " ++
            toString timeout ++ "ms exceeded")))
    else st

/-- What the caller of `waitWithTimeout` observes: outcome (`none` while
suspended), whether a timer was armed at entry, and whether a timer is
still pending afterwards (the `finally` block clears it on every exit
path). -/
structure WTResult where
  outcome : Option (Except JSValue JSValue)
  armed : Bool
  timerActive : Bool

/-- `Helper.waitWithTimeout`: arm a timer when `timeout` is truthy, race
the wrapped promise against the timeout rejection, and clear the timer in
`finally` on every exit path.  No `instanceof` discrimination here: a
fulfillment is returned as-is, a rejection is rethrown as-is. -/
def waitWithTimeout (taskName : String) (timeout : Nat)
    (trace : List WTOccurrence) : WTResult :=
  let st0 : WTState := { raceCell := none, timerActive := timeout != 0 }
  let st := trace.foldl (stepWT taskName timeout) st0
  match st.raceCell with
  | none => { outcome := none, armed := timeout != 0
              timerActive := st.timerActive }
  | some s =>
    { outcome := some (match s with
        | .resolved v => .ok v
        | .rejected e => .error e)
      armed := timeout != 0, timerActive := false }

/-- Modelled from the spec (refinement reference for C8): awaiting the
wrapped promise directly — the outcome is its first settlement, and the
timer occurrences of the trace are irrelevant to it. -/
def awaitDirectly : List WTOccurrence → Option (Except JSValue JSValue)
  | [] => none
  | .promiseSettle (.resolved v) :: _ => some (.ok v)
  | .promiseSettle (.rejected e) :: _ => some (.error e)
  | .timerFire :: rest => awaitDirectly rest

/-- The initial pending-wait state of `waitForEvent`. -/
def initState (timeout : Nat) : WaitState :=
  { raceCell := none, timerActive := timeout != 0, abortSettled := false }

/-- A settled race cell is never overwritten by a later occurrence. -/
theorem step_settled (eventName : String) (predicate : JSValue → PredResult)
    (st : WaitState) (s : Settlement) (h : st.raceCell = some s)
    (o : Occurrence) : (step eventName predicate st o).raceCell = some s := by
  cases o with
  | emit payload =>
    cases hp : predicate payload with
    | ok b => cases b <;> simp [step, hp, settleCell, h]
    | thrown e => simp [step, hp, settleCell, h]
  | timerFire => by_cases ht : st.timerActive <;> simp [step, ht, settleCell, h]
  | abortResolve v =>
    by_cases ha : st.abortSettled <;> simp [step, ha, settleCell, h]

/-- A settled race cell survives any further stretch of the trace. -/
theorem runTrace_settled (eventName : String)
    (predicate : JSValue → PredResult) (st : WaitState) (s : Settlement)
    (h : st.raceCell = some s) (trace : List Occurrence) :
    (runTrace eventName predicate st trace).raceCell = some s := by
  induction trace generalizing st with
  | nil => simpa [runTrace] using h
  | cons o rest ih =>
    simp only [runTrace, List.foldl_cons]
    exact ih _ (step_settled eventName predicate st s h o)

/-- Running a concatenated trace runs the pieces in order. -/
theorem runTrace_append (eventName : String)
    (predicate : JSValue → PredResult) (st : WaitState)
    (t₁ t₂ : List Occurrence) :
    runTrace eventName predicate st (t₁ ++ t₂) =
      runTrace eventName predicate (runTrace eventName predicate st t₁) t₂ :=
  List.foldl_append _ _ _ _

/-- The settlement reported by `waitForEvent` is the race cell after the
trace. -/
theorem waitForEvent_settlement (w : World) (emitter handler : Nat)
    (eventName : String) (predicate : JSValue → PredResult) (timeout : Nat)
    (trace : List Occurrence) :
    (waitForEvent w emitter handler eventName predicate timeout
        trace).settlement =
      (runTrace eventName predicate (initState timeout) trace).raceCell := by
  simp only [waitForEvent, initState]
  cases hc : (runTrace eventName predicate
      { raceCell := none, timerActive := timeout != 0,
        abortSettled := false } trace).raceCell <;> simp [hc]

/-- Shape of the `waitForEvent` result when the race has settled with `s`:
cleanup ran once (the listener handle was removed from the emitter and
the timer cleared) and the outcome is `raceOutcome s`. -/
theorem waitForEvent_eq_settled (w : World) (emitter handler : Nat)
    (eventName : String) (predicate : JSValue → PredResult) (timeout : Nat)
    (trace : List Occurrence) (s : Settlement)
    (hc : (runTrace eventName predicate (initState timeout)
        trace).raceCell = some s) :
    waitForEvent w emitter handler eventName predicate timeout trace =
      { settlement := some s, outcome := some (raceOutcome s)
        subs := List.erase
          (List.append w [⟨emitter, eventName, handler⟩])
          ⟨emitter, eventName, handler⟩
        timerActive := false, cleanupCount := 1, listenerRemovals := 1 } := by
  simp only [initState] at hc
  simp [waitForEvent, hc, addEventListener, removeEventListeners,
    removeListener]

/-- Shape of the `waitForEvent` result while the race is still pending:
the call is suspended, the listener still attached, no cleanup has run. -/
theorem waitForEvent_eq_pending (w : World) (emitter handler : Nat)
    (eventName : String) (predicate : JSValue → PredResult) (timeout : Nat)
    (trace : List Occurrence)
    (hc : (runTrace eventName predicate (initState timeout)
        trace).raceCell = none) :
    waitForEvent w emitter handler eventName predicate timeout trace =
      { settlement := none, outcome := none
        subs := List.append w [⟨emitter, eventName, handler⟩]
        timerActive := (runTrace eventName predicate (initState timeout)
          trace).timerActive
        cleanupCount := 0, listenerRemovals := 0 } := by
  simp only [initState] at hc ⊢
  simp [waitForEvent, hc, addEventListener]

/-- C6: once a pending `waitForEvent` has been resolved by one completion
source, any subsequent firing of another source — the predicate matching
again, the timer also expiring, or the abort signal also resolving — is
ignored: extending the trace past the settlement changes nothing about
what the caller observes, so the outcome is determined by exactly one
source and is never duplicated or changed. -/
theorem waitForEvent_resolve_once (w : World) (emitter handler : Nat)
    (eventName : String) (predicate : JSValue → PredResult) (timeout : Nat)
    (trace extra : List Occurrence) (s : Settlement)
    (h : (waitForEvent w emitter handler eventName predicate timeout
        trace).settlement = some s) :
    waitForEvent w emitter handler eventName predicate timeout
        (trace ++ extra) =
      waitForEvent w emitter handler eventName predicate timeout trace := by
  rw [waitForEvent_settlement] at h
  have h₂ : (runTrace eventName predicate (initState timeout)
      (trace ++ extra)).raceCell = some s := by
    rw [runTrace_append]
    exact runTrace_settled eventName predicate _ s h extra
  rw [waitForEvent_eq_settled w emitter handler eventName predicate timeout
    (trace ++ extra) s h₂,
    waitForEvent_eq_settled w emitter handler eventName predicate timeout
    trace s h]

/-- Witness for C6 at a concrete input: an event match settles the race,
and a later timer fire and abort resolution change nothing. -/
theorem waitForEvent_resolve_once_witness :
    waitForEvent [] 0 0 "close" (fun _ => .ok true) 5
        ([.emit (.value 3)] ++ [.timerFire, .abortResolve (.value 9)]) =
      waitForEvent [] 0 0 "close" (fun _ => .ok true) 5
        [.emit (.value 3)] :=
  waitForEvent_resolve_once [] 0 0 "close" (fun _ => .ok true) 5
    [.emit (.value 3)] [.timerFire, .abortResolve (.value 9)]
    (.resolved (.value 3)) (by rfl)

/-- C1: on any completion of `waitForEvent` — event match, predicate
exception, timeout, or abort — cleanup runs exactly once before the
outcome is observed: one `removeListener` call takes the registered
listener back off the emitter (the subscription count returns to what it
was before the call) and the timer is cleared. -/
theorem waitForEvent_cleanup_once (w : World) (emitter handler : Nat)
    (eventName : String) (predicate : JSValue → PredResult) (timeout : Nat)
    (trace : List Occurrence)
    (h : (waitForEvent w emitter handler eventName predicate timeout
        trace).settlement.isSome = true) :
    (waitForEvent w emitter handler eventName predicate timeout
        trace).cleanupCount = 1 ∧
    (waitForEvent w emitter handler eventName predicate timeout
        trace).listenerRemovals = 1 ∧
    (waitForEvent w emitter handler eventName predicate timeout
        trace).timerActive = false ∧
    List.count ⟨emitter, eventName, handler⟩
        (waitForEvent w emitter handler eventName predicate timeout
          trace).subs =
      List.count ⟨emitter, eventName, handler⟩ w := by
  rw [waitForEvent_settlement] at h
  cases hc : (runTrace eventName predicate (initState timeout)
      trace).raceCell with
  | none => rw [hc] at h; simp at h
  | some s =>
    rw [waitForEvent_eq_settled w emitter handler eventName predicate
      timeout trace s hc]
    refine ⟨rfl, rfl, rfl, ?_⟩
    simp [List.count_erase_self, List.count_append]

/-- Witness for C1 at a concrete input: a predicate exception on the
first event. -/
theorem waitForEvent_cleanup_once_witness :
    (waitForEvent [⟨1, "close", 7⟩] 1 8 "close"
        (fun _ => .thrown (.value 13)) 100
        [.emit (.value 0)]).cleanupCount = 1 ∧
    (waitForEvent [⟨1, "close", 7⟩] 1 8 "close"
        (fun _ => .thrown (.value 13)) 100
        [.emit (.value 0)]).listenerRemovals = 1 ∧
    (waitForEvent [⟨1, "close", 7⟩] 1 8 "close"
        (fun _ => .thrown (.value 13)) 100
        [.emit (.value 0)]).timerActive = false ∧
    List.count (⟨1, "close", 8⟩ : RegisteredListener)
        (waitForEvent [⟨1, "close", 7⟩] 1 8 "close"
          (fun _ => .thrown (.value 13)) 100
          [.emit (.value 0)]).subs =
      List.count (⟨1, "close", 8⟩ : RegisteredListener) [⟨1, "close", 7⟩] :=
  waitForEvent_cleanup_once [⟨1, "close", 7⟩] 1 8 "close"
    (fun _ => .thrown (.value 13)) 100 [.emit (.value 0)] (by rfl)

/-- C10: after the race settles by fulfillment, `waitForEvent` throws the
winning result exactly when it is an `Error` instance, and forwards it as
success otherwise.  The check is the same for every fulfillment source:
a non-`Error` abort resolution is forwarded as success, and a matched
event payload that is an `Error` instance is thrown. -/
theorem waitForEvent_instanceof_check (w : World) (emitter handler : Nat)
    (eventName : String) (predicate : JSValue → PredResult) (timeout : Nat)
    (trace : List Occurrence) (r : JSValue)
    (h : (waitForEvent w emitter handler eventName predicate timeout
        trace).settlement = some (.resolved r)) :
    ((waitForEvent w emitter handler eventName predicate timeout
        trace).outcome = some (.error r) ↔ r.isError = true) ∧
    (r.isError = false →
      (waitForEvent w emitter handler eventName predicate timeout
        trace).outcome = some (.ok r)) := by
  rw [waitForEvent_settlement] at h
  rw [waitForEvent_eq_settled w emitter handler eventName predicate timeout
    trace (.resolved r) h]
  cases hr : r.isError <;> simp [raceOutcome, hr]

/-- Witness for C10 at a concrete input: the abort promise resolves with
a non-`Error` value and `waitForEvent` forwards it as a success. -/
theorem waitForEvent_instanceof_check_witness :
    ((waitForEvent [] 0 0 "close" (fun _ => .ok false) 0
        [.abortResolve (.value 7)]).outcome =
          some (.error (.value 7)) ↔ (JSValue.value 7).isError = true) ∧
    ((JSValue.value 7).isError = false →
      (waitForEvent [] 0 0 "close" (fun _ => .ok false) 0
        [.abortResolve (.value 7)]).outcome = some (.ok (.value 7))) :=
  waitForEvent_instanceof_check [] 0 0 "close" (fun _ => .ok false) 0
    [.abortResolve (.value 7)] (.value 7) (by rfl)

/-- A stretch of trace whose occurrences are all emissions the predicate
rejects (returning `false`) leaves the pending wait untouched. -/
theorem runTrace_false_emits (eventName : String)
    (predicate : JSValue → PredResult) (st : WaitState)
    (pre : List Occurrence)
    (h : ∀ o ∈ pre, ∃ v, o = Occurrence.emit v ∧ predicate v = .ok false) :
    runTrace eventName predicate st pre = st := by
  induction pre generalizing st with
  | nil => rfl
  | cons o rest ih =>
    obtain ⟨v, rfl, hv⟩ := h o (List.mem_cons_self o rest)
    have hstep : step eventName predicate st (.emit v) = st := by
      simp [step, hv]
    simp only [runTrace, List.foldl_cons, hstep]
    exact ih st fun o ho => h o (List.mem_cons_of_mem _ ho)

/-- C2: with a truthy timeout and an emitter that emits no matching event
before the timer fires, `waitForEvent` fails with the `TimeoutError`
carrying exactly `"Timeout exceeded while waiting for <eventName>"`, and
its listener is removed from the emitter. -/
theorem waitForEvent_timeout (w : World) (emitter handler : Nat)
    (eventName : String) (predicate : JSValue → PredResult) (timeout : Nat)
    (pre rest : List Occurrence) (ht : timeout ≠ 0)
    (hpre : ∀ o ∈ pre, ∃ v, o = Occurrence.emit v ∧
      predicate v = .ok false) :
    (waitForEvent w emitter handler eventName predicate timeout
        (pre ++ Occurrence.timerFire :: rest)).outcome =
      some (.error (JSValue.error "TimeoutError"
        ("Timeout exceeded while waiting for " ++ eventName))) ∧
    List.count ⟨emitter, eventName, handler⟩
        (waitForEvent w emitter handler eventName predicate timeout
          (pre ++ Occurrence.timerFire :: rest)).subs =
      List.count ⟨emitter, eventName, handler⟩ w := by
  have hc : (runTrace eventName predicate (initState timeout)
      (pre ++ Occurrence.timerFire :: rest)).raceCell =
        some (.rejected (mkTimeoutError
          ("Timeout exceeded while waiting for " ++ eventName))) := by
    rw [runTrace_append, runTrace_false_emits eventName predicate _ pre hpre]
    simp only [runTrace, List.foldl_cons]
    have hfire : step eventName predicate (initState timeout) .timerFire =
        { raceCell := some (.rejected (mkTimeoutError
            ("Timeout exceeded while waiting for " ++ eventName)))
          timerActive := false, abortSettled := false } := by
      simp [step, settleCell, initState, ht]
    rw [hfire]
    exact runTrace_settled eventName predicate _ _ rfl rest
  rw [waitForEvent_eq_settled w emitter handler eventName predicate timeout
    _ _ hc]
  refine ⟨rfl, ?_⟩
  simp [List.count_erase_self, List.count_append]

/-- Witness for C2 at a concrete input: one non-matching event, then the
timer fires. -/
theorem waitForEvent_timeout_witness :
    (waitForEvent [] 4 5 "response" (fun _ => .ok false) 100
        ([.emit (.value 1)] ++ Occurrence.timerFire :: [])).outcome =
      some (.error (JSValue.error "TimeoutError"
        "Timeout exceeded while waiting for response")) ∧
    List.count (⟨4, "response", 5⟩ : RegisteredListener)
        (waitForEvent [] 4 5 "response" (fun _ => .ok false) 100
          ([.emit (.value 1)] ++ Occurrence.timerFire :: [])).subs =
      List.count (⟨4, "response", 5⟩ : RegisteredListener) [] :=
  waitForEvent_timeout [] 4 5 "response" (fun _ => .ok false) 100
    [.emit (.value 1)] [] (by decide)
    (by
      intro o ho
      rw [List.mem_singleton] at ho
      exact ⟨.value 1, ho, rfl⟩)

/-- C4: if the abort promise resolves with an `Error` value before any
matching event and before the timer fires, `waitForEvent` fails with that
exact value, with cleanup already performed. -/
theorem waitForEvent_abort (w : World) (emitter handler : Nat)
    (eventName : String) (predicate : JSValue → PredResult) (timeout : Nat)
    (pre rest : List Occurrence) (v : JSValue) (hv : v.isError = true)
    (hpre : ∀ o ∈ pre, ∃ u, o = Occurrence.emit u ∧
      predicate u = .ok false) :
    (waitForEvent w emitter handler eventName predicate timeout
        (pre ++ Occurrence.abortResolve v :: rest)).outcome =
      some (.error v) ∧
    (waitForEvent w emitter handler eventName predicate timeout
        (pre ++ Occurrence.abortResolve v :: rest)).cleanupCount = 1 ∧
    (waitForEvent w emitter handler eventName predicate timeout
        (pre ++ Occurrence.abortResolve v :: rest)).timerActive = false ∧
    List.count ⟨emitter, eventName, handler⟩
        (waitForEvent w emitter handler eventName predicate timeout
          (pre ++ Occurrence.abortResolve v :: rest)).subs =
      List.count ⟨emitter, eventName, handler⟩ w := by
  have hc : (runTrace eventName predicate (initState timeout)
      (pre ++ Occurrence.abortResolve v :: rest)).raceCell =
        some (.resolved v) := by
    rw [runTrace_append, runTrace_false_emits eventName predicate _ pre hpre]
    simp only [runTrace, List.foldl_cons]
    have habort : step eventName predicate (initState timeout)
        (.abortResolve v) =
      { raceCell := some (.resolved v)
        timerActive := (initState timeout).timerActive
        abortSettled := true } := by
      simp [step, settleCell, initState]
    rw [habort]
    exact runTrace_settled eventName predicate _ _ rfl rest
  rw [waitForEvent_eq_settled w emitter handler eventName predicate timeout
    _ _ hc]
  refine ⟨?_, rfl, rfl, ?_⟩
  · simp [raceOutcome, hv]
  · simp [List.count_erase_self, List.count_append]

/-- Witness for C4 at a concrete input: one non-matching event, then the
abort promise resolves with an `Error`. -/
theorem waitForEvent_abort_witness :
    (waitForEvent [] 2 3 "load" (fun _ => .ok false) 50
        ([.emit (.value 6)] ++
          Occurrence.abortResolve (.error "Error" "aborted") :: [])).outcome =
      some (.error (.error "Error" "aborted")) ∧
    (waitForEvent [] 2 3 "load" (fun _ => .ok false) 50
        ([.emit (.value 6)] ++
          Occurrence.abortResolve (.error "Error" "aborted") ::
            [])).cleanupCount = 1 ∧
    (waitForEvent [] 2 3 "load" (fun _ => .ok false) 50
        ([.emit (.value 6)] ++
          Occurrence.abortResolve (.error "Error" "aborted") ::
            [])).timerActive = false ∧
    List.count (⟨2, "load", 3⟩ : RegisteredListener)
        (waitForEvent [] 2 3 "load" (fun _ => .ok false) 50
          ([.emit (.value 6)] ++
            Occurrence.abortResolve (.error "Error" "aborted") :: [])).subs =
      List.count (⟨2, "load", 3⟩ : RegisteredListener) [] :=
  waitForEvent_abort [] 2 3 "load" (fun _ => .ok false) 50
    [.emit (.value 6)] [] (.error "Error" "aborted") (by rfl)
    (by
      intro o ho
      rw [List.mem_singleton] at ho
      exact ⟨.value 6, ho, rfl⟩)

/-- C5: if the predicate throws while evaluating an emitted event (after
only non-matching events), `waitForEvent` fails with that same thrown
value, the listener is removed, and the timer is cleared even though the
timeout had not elapsed. -/
theorem waitForEvent_predicate_throws (w : World) (emitter handler : Nat)
    (eventName : String) (predicate : JSValue → PredResult) (timeout : Nat)
    (pre rest : List Occurrence) (ev e : JSValue) (_ht : timeout ≠ 0)
    (hthrow : predicate ev = .thrown e)
    (hpre : ∀ o ∈ pre, ∃ u, o = Occurrence.emit u ∧
      predicate u = .ok false) :
    (waitForEvent w emitter handler eventName predicate timeout
        (pre ++ Occurrence.emit ev :: rest)).outcome =
      some (.error e) ∧
    (waitForEvent w emitter handler eventName predicate timeout
        (pre ++ Occurrence.emit ev :: rest)).cleanupCount = 1 ∧
    (waitForEvent w emitter handler eventName predicate timeout
        (pre ++ Occurrence.emit ev :: rest)).timerActive = false ∧
    List.count ⟨emitter, eventName, handler⟩
        (waitForEvent w emitter handler eventName predicate timeout
          (pre ++ Occurrence.emit ev :: rest)).subs =
      List.count ⟨emitter, eventName, handler⟩ w := by
  have hc : (runTrace eventName predicate (initState timeout)
      (pre ++ Occurrence.emit ev :: rest)).raceCell =
        some (.rejected e) := by
    rw [runTrace_append, runTrace_false_emits eventName predicate _ pre hpre]
    simp only [runTrace, List.foldl_cons]
    have hstep : step eventName predicate (initState timeout) (.emit ev) =
        { raceCell := some (.rejected e)
          timerActive := (initState timeout).timerActive
          abortSettled := false } := by
      simp [step, hthrow, settleCell, initState]
    rw [hstep]
    exact runTrace_settled eventName predicate _ _ rfl rest
  rw [waitForEvent_eq_settled w emitter handler eventName predicate timeout
    _ _ hc]
  refine ⟨rfl, rfl, rfl, ?_⟩
  simp [List.count_erase_self, List.count_append]

/-- Witness for C5 at a concrete input: the predicate throws a
non-`Error` value on the first event, with the timer armed. -/
theorem waitForEvent_predicate_throws_witness :
    (waitForEvent [] 1 2 "request" (fun _ => .thrown (.value 99)) 1000
        ([] ++ Occurrence.emit (.value 0) :: [])).outcome =
      some (.error (.value 99)) ∧
    (waitForEvent [] 1 2 "request" (fun _ => .thrown (.value 99)) 1000
        ([] ++ Occurrence.emit (.value 0) :: [])).cleanupCount = 1 ∧
    (waitForEvent [] 1 2 "request" (fun _ => .thrown (.value 99)) 1000
        ([] ++ Occurrence.emit (.value 0) :: [])).timerActive = false ∧
    List.count (⟨1, "request", 2⟩ : RegisteredListener)
        (waitForEvent [] 1 2 "request" (fun _ => .thrown (.value 99)) 1000
          ([] ++ Occurrence.emit (.value 0) :: [])).subs =
      List.count (⟨1, "request", 2⟩ : RegisteredListener) [] :=
  waitForEvent_predicate_throws [] 1 2 "request"
    (fun _ => .thrown (.value 99)) 1000 [] [] (.value 0) (.value 99)
    (by decide) (by rfl) (by intro o ho; simp at ho)

/-- C3 as frozen is false on the code: when the matched event's payload
is itself an `Error` instance, `waitForEvent` throws the payload instead
of resolving with it (`if (result instanceof Error) throw result`).
Concrete counterexample: an always-true predicate and a single emission
whose payload is an `Error`. -/
theorem waitForEvent_match_error_payload_cex :
    (waitForEvent [] 0 0 "close" (fun _ => .ok true) 1000
        [.emit (.error "Error" "boom")]).outcome =
      some (.error (.error "Error" "boom")) ∧
    ¬ (waitForEvent [] 0 0 "close" (fun _ => .ok true) 1000
        [.emit (.error "Error" "boom")]).outcome =
      some (.ok (.error "Error" "boom")) := by
  refine ⟨rfl, fun h => ?_⟩
  have h₁ : (waitForEvent [] 0 0 "close" (fun _ => .ok true) 1000
      [.emit (.error "Error" "boom")]).outcome =
    some (.error (.error "Error" "boom")) := rfl
  have h₂ := h₁.symm.trans h
  simp at h₂

/-- C3 (amended: the matched payload is not an `Error` instance): when
the predicate rejects every earlier event and accepts the `k`-th one, and
neither the timer nor the abort signal fired before it, `waitForEvent`
resolves with that event's payload and performs no more than one listener
removal. -/
theorem waitForEvent_match (w : World) (emitter handler : Nat)
    (eventName : String) (predicate : JSValue → PredResult) (timeout : Nat)
    (pre rest : List Occurrence) (ev : JSValue)
    (hmatch : predicate ev = .ok true) (hval : ev.isError = false)
    (hpre : ∀ o ∈ pre, ∃ u, o = Occurrence.emit u ∧
      predicate u = .ok false) :
    (waitForEvent w emitter handler eventName predicate timeout
        (pre ++ Occurrence.emit ev :: rest)).outcome = some (.ok ev) ∧
    (waitForEvent w emitter handler eventName predicate timeout
        (pre ++ Occurrence.emit ev :: rest)).listenerRemovals ≤ 1 := by
  have hc : (runTrace eventName predicate (initState timeout)
      (pre ++ Occurrence.emit ev :: rest)).raceCell =
        some (.resolved ev) := by
    rw [runTrace_append, runTrace_false_emits eventName predicate _ pre hpre]
    simp only [runTrace, List.foldl_cons]
    have hstep : step eventName predicate (initState timeout) (.emit ev) =
        { raceCell := some (.resolved ev)
          timerActive := (initState timeout).timerActive
          abortSettled := false } := by
      simp [step, hmatch, settleCell, initState]
    rw [hstep]
    exact runTrace_settled eventName predicate _ _ rfl rest
  rw [waitForEvent_eq_settled w emitter handler eventName predicate timeout
    _ _ hc]
  exact ⟨by simp [raceOutcome, hval], by simp⟩

/-- Witness for the amended C3 at a concrete input: the second event
matches after a first one is rejected. -/
theorem waitForEvent_match_witness :
    (waitForEvent [] 0 9 "frame"
        (fun v => .ok (v == JSValue.value 2)) 1000
        ([.emit (.value 1)] ++ Occurrence.emit (.value 2) ::
          [.timerFire])).outcome = some (.ok (.value 2)) ∧
    (waitForEvent [] 0 9 "frame"
        (fun v => .ok (v == JSValue.value 2)) 1000
        ([.emit (.value 1)] ++ Occurrence.emit (.value 2) ::
          [.timerFire])).listenerRemovals ≤ 1 :=
  waitForEvent_match [] 0 9 "frame"
    (fun v => .ok (v == JSValue.value 2)) 1000
    [.emit (.value 1)] [.timerFire] (.value 2) (by rfl) (by rfl)
    (by
      intro o ho
      rw [List.mem_singleton] at ho
      exact ⟨.value 1, ho, rfl⟩)

/-- The initial pending state of `waitWithTimeout`. -/
def initWT (timeout : Nat) : WTState :=
  { raceCell := none, timerActive := timeout != 0 }

/-- A settled `waitWithTimeout` race cell is never overwritten. -/
theorem stepWT_settled (taskName : String) (timeout : Nat) (st : WTState)
    (s : Settlement) (h : st.raceCell = some s) (o : WTOccurrence) :
    (stepWT taskName timeout st o).raceCell = some s := by
  cases o with
  | promiseSettle s' => simp [stepWT, settleWT, h]
  | timerFire =>
    by_cases ht : st.timerActive <;> simp [stepWT, ht, settleWT, h]

/-- A settled `waitWithTimeout` race cell survives the rest of the
trace. -/
theorem foldWT_settled (taskName : String) (timeout : Nat) (st : WTState)
    (s : Settlement) (h : st.raceCell = some s) (trace : List WTOccurrence) :
    (trace.foldl (stepWT taskName timeout) st).raceCell = some s := by
  induction trace generalizing st with
  | nil => simpa using h
  | cons o rest ih =>
    simp only [List.foldl_cons]
    exact ih _ (stepWT_settled taskName timeout st s h o)

/-- Shape of the `waitWithTimeout` result once the race has settled:
the `finally` block has cleared the timer, a fulfillment is returned and
a rejection rethrown as-is. -/
theorem waitWithTimeout_eq_settled (taskName : String) (timeout : Nat)
    (trace : List WTOccurrence) (s : Settlement)
    (hc : (trace.foldl (stepWT taskName timeout)
        (initWT timeout)).raceCell = some s) :
    waitWithTimeout taskName timeout trace =
      { outcome := some (match s with
          | .resolved v => .ok v
          | .rejected e => .error e)
        armed := timeout != 0, timerActive := false } := by
  simp only [initWT] at hc
  cases s <;> simp [waitWithTimeout, hc]

/-- Shape of `waitWithTimeout` while the race is still pending: the call
is suspended, so no outcome and no `finally` yet. -/
theorem waitWithTimeout_eq_pending (taskName : String) (timeout : Nat)
    (trace : List WTOccurrence)
    (hc : (trace.foldl (stepWT taskName timeout)
        (initWT timeout)).raceCell = none) :
    waitWithTimeout taskName timeout trace =
      { outcome := none, armed := timeout != 0
        timerActive := (trace.foldl (stepWT taskName timeout)
          (initWT timeout)).timerActive } := by
  simp only [initWT] at hc ⊢
  simp [waitWithTimeout, hc]

/-- C7: for a truthy timeout, `waitWithTimeout` fails with the
`TimeoutError` message `"waiting for <taskName> failed: timeout
<ms>ms exceeded"` when the timer fires before the wrapped promise
settles; propagates the wrapped promise's own rejection verbatim when it
loses first; and on every settled exit the timer has been cleared. -/
theorem waitWithTimeout_spec (taskName : String) (timeout : Nat)
    (trace : List WTOccurrence) (ht : timeout ≠ 0) :
    (∀ rest, trace = WTOccurrence.timerFire :: rest →
      (waitWithTimeout taskName timeout trace).outcome =
        some (.error (JSValue.error "TimeoutError"
          ("waiting for " ++ taskName ++ " failed: timeout " ++
            toString timeout ++ "ms exceeded")))) ∧
    (∀ e rest, trace = WTOccurrence.promiseSettle (.rejected e) :: rest →
      (waitWithTimeout taskName timeout trace).outcome =
        some (.error e)) ∧
    ((waitWithTimeout taskName timeout trace).outcome.isSome = true →
      (waitWithTimeout taskName timeout trace).timerActive = false) := by
  refine ⟨?_, ?_, ?_⟩
  · rintro rest rfl
    have hc : ((WTOccurrence.timerFire :: rest).foldl
        (stepWT taskName timeout) (initWT timeout)).raceCell =
          some (.rejected (mkTimeoutError
            ("waiting for " ++ taskName ++ " failed: timeout " ++
              toString timeout ++ "ms exceeded"))) := by
      simp only [List.foldl_cons]
      have hfire : stepWT taskName timeout (initWT timeout) .timerFire =
          { raceCell := some (.rejected (mkTimeoutError
              ("waiting for " ++ taskName ++ " failed: timeout " ++
                toString timeout ++ "ms exceeded")))
            timerActive := false } := by
        simp [stepWT, initWT, settleWT, ht]
      rw [hfire]
      exact foldWT_settled taskName timeout _ _ rfl rest
    rw [waitWithTimeout_eq_settled taskName timeout _ _ hc]
    rfl
  · rintro e rest rfl
    have hc : ((WTOccurrence.promiseSettle (.rejected e) :: rest).foldl
        (stepWT taskName timeout) (initWT timeout)).raceCell =
          some (.rejected e) := by
      simp only [List.foldl_cons]
      have hstep : stepWT taskName timeout (initWT timeout)
          (.promiseSettle (.rejected e)) =
        { raceCell := some (.rejected e)
          timerActive := (initWT timeout).timerActive } := by
        simp [stepWT, settleWT, initWT]
      rw [hstep]
      exact foldWT_settled taskName timeout _ _ rfl rest
    rw [waitWithTimeout_eq_settled taskName timeout _ _ hc]
  · intro hsome
    cases hc : (trace.foldl (stepWT taskName timeout)
        (initWT timeout)).raceCell with
    | none =>
      rw [waitWithTimeout_eq_pending taskName timeout trace hc] at hsome
      simp at hsome
    | some s =>
      rw [waitWithTimeout_eq_settled taskName timeout trace s hc]

/-- Witness for C7 at a concrete input: the timer fires first with task
name `"navigation"` and timeout `30`. -/
theorem waitWithTimeout_spec_witness :
    (∀ rest, ([WTOccurrence.timerFire] : List WTOccurrence) =
        WTOccurrence.timerFire :: rest →
      (waitWithTimeout "navigation" 30 [WTOccurrence.timerFire]).outcome =
        some (.error (JSValue.error "TimeoutError"
          ("waiting for " ++ "navigation" ++ " failed: timeout " ++
            toString (30 : Nat) ++ "ms exceeded")))) ∧
    (∀ e rest, ([WTOccurrence.timerFire] : List WTOccurrence) =
        WTOccurrence.promiseSettle (.rejected e) :: rest →
      (waitWithTimeout "navigation" 30 [WTOccurrence.timerFire]).outcome =
        some (.error e)) ∧
    ((waitWithTimeout "navigation" 30
        [WTOccurrence.timerFire]).outcome.isSome = true →
      (waitWithTimeout "navigation" 30
        [WTOccurrence.timerFire]).timerActive = false) :=
  waitWithTimeout_spec "navigation" 30 [WTOccurrence.timerFire] (by decide)

/-- C8: with timeout `0` no timer is armed and `waitWithTimeout` never
times out — its outcome over any trace equals awaiting the wrapped
promise directly. -/
theorem waitWithTimeout_zero_no_timer (taskName : String)
    (trace : List WTOccurrence) :
    (waitWithTimeout taskName 0 trace).outcome = awaitDirectly trace ∧
    (waitWithTimeout taskName 0 trace).armed = false := by
  constructor
  · induction trace with
    | nil => rfl
    | cons o rest ih =>
      cases o with
      | timerFire =>
        have hthis : waitWithTimeout taskName 0
            (WTOccurrence.timerFire :: rest) =
          waitWithTimeout taskName 0 rest := by
          simp only [waitWithTimeout, List.foldl_cons]
          rfl
        rw [hthis, show awaitDirectly (WTOccurrence.timerFire :: rest) =
          awaitDirectly rest from rfl]
        exact ih
      | promiseSettle s =>
        have hc : ((WTOccurrence.promiseSettle s :: rest).foldl
            (stepWT taskName 0) (initWT 0)).raceCell = some s := by
          simp only [List.foldl_cons]
          have hstep : stepWT taskName 0 (initWT 0) (.promiseSettle s) =
              { raceCell := some s, timerActive := false } := rfl
          rw [hstep]
          exact foldWT_settled taskName 0 _ _ rfl rest
        rw [waitWithTimeout_eq_settled taskName 0 _ _ hc]
        cases s <;> rfl
  · cases hc : (trace.foldl (stepWT taskName 0) (initWT 0)).raceCell with
    | none =>
      rw [waitWithTimeout_eq_pending taskName 0 trace hc]
      rfl
    | some s =>
      rw [waitWithTimeout_eq_settled taskName 0 trace s hc]
      rfl

/-- Unsubscribing a batch never touches the count of a subscription whose
handle is not in the batch. -/
theorem count_removeBatch_not_mem (l : RegisteredListener)
    (batch : List RegisteredListener) :
    ∀ w : World, l ∉ batch →
      List.count l (batch.foldl removeListener w) = List.count l w := by
  induction batch with
  | nil => intro w _; rfl
  | cons b bs ih =>
    intro w h
    simp only [List.foldl_cons]
    have hne : l ≠ b := fun e => h (e ▸ List.mem_cons_self b bs)
    rw [ih (removeListener w b) fun hm => h (List.mem_cons_of_mem b hm)]
    simp [removeListener, List.count_erase_of_ne hne]

/-- Unsubscribing a duplicate-free batch removes exactly one subscription
per handle in the batch. -/
theorem count_removeBatch_mem (l : RegisteredListener)
    (batch : List RegisteredListener) :
    ∀ w : World, l ∈ batch → batch.Nodup →
      List.count l (batch.foldl removeListener w) = List.count l w - 1 := by
  induction batch with
  | nil => intro w h _; exact absurd h (List.not_mem_nil l)
  | cons b bs ih =>
    intro w h hnd
    obtain ⟨hb, hbs⟩ := List.nodup_cons.mp hnd
    simp only [List.foldl_cons]
    rcases List.mem_cons.mp h with rfl | hmem
    · rw [count_removeBatch_not_mem l bs (removeListener w l) hb]
      simp [removeListener, List.count_erase_self]
    · have hne : l ≠ b := fun e => hb (e ▸ hmem)
      rw [ih (removeListener w b) hmem hbs]
      simp [removeListener, List.count_erase_of_ne hne]

/-- C9: `removeEventListeners` unsubscribes each handle of the batch from
its emitter (one subscription per handle, with no requirement that the
subscription still exists) and drains the batch in place; an empty batch
is a no-op, and a second call on the already-drained batch leaves it
empty and changes nothing. -/
theorem removeEventListeners_spec (w : World)
    (batch : List RegisteredListener) (hnd : batch.Nodup) :
    (removeEventListeners w batch).2 = [] ∧
    (∀ l ∈ batch, List.count l (removeEventListeners w batch).1 =
      List.count l w - 1) ∧
    (∀ l, l ∉ batch → List.count l (removeEventListeners w batch).1 =
      List.count l w) ∧
    removeEventListeners w [] = (w, []) ∧
    removeEventListeners (removeEventListeners w batch).1
        (removeEventListeners w batch).2 =
      ((removeEventListeners w batch).1, []) := by
  refine ⟨rfl, ?_, ?_, rfl, rfl⟩
  · intro l hl
    exact count_removeBatch_mem l batch w hl hnd
  · intro l hl
    exact count_removeBatch_not_mem l batch w hl

/-- Witness for C9 at a concrete input: a world with a duplicate
subscription and a two-handle batch, one handle of which occurs twice in
the world and one of which is absent from it. -/
theorem removeEventListeners_spec_witness :
    (removeEventListeners [⟨0, "a", 1⟩, ⟨0, "a", 1⟩, ⟨1, "b", 2⟩]
        [⟨0, "a", 1⟩, ⟨2, "c", 3⟩]).2 = [] ∧
    (∀ l ∈ ([⟨0, "a", 1⟩, ⟨2, "c", 3⟩] : List RegisteredListener),
      List.count l (removeEventListeners
          [⟨0, "a", 1⟩, ⟨0, "a", 1⟩, ⟨1, "b", 2⟩]
          [⟨0, "a", 1⟩, ⟨2, "c", 3⟩]).1 =
        List.count l [⟨0, "a", 1⟩, ⟨0, "a", 1⟩, ⟨1, "b", 2⟩] - 1) ∧
    (∀ l, l ∉ ([⟨0, "a", 1⟩, ⟨2, "c", 3⟩] : List RegisteredListener) →
      List.count l (removeEventListeners
          [⟨0, "a", 1⟩, ⟨0, "a", 1⟩, ⟨1, "b", 2⟩]
          [⟨0, "a", 1⟩, ⟨2, "c", 3⟩]).1 =
        List.count l [⟨0, "a", 1⟩, ⟨0, "a", 1⟩, ⟨1, "b", 2⟩]) ∧
    removeEventListeners [⟨0, "a", 1⟩, ⟨0, "a", 1⟩, ⟨1, "b", 2⟩] [] =
      ([⟨0, "a", 1⟩, ⟨0, "a", 1⟩, ⟨1, "b", 2⟩], []) ∧
    removeEventListeners
        (removeEventListeners [⟨0, "a", 1⟩, ⟨0, "a", 1⟩, ⟨1, "b", 2⟩]
          [⟨0, "a", 1⟩, ⟨2, "c", 3⟩]).1
        (removeEventListeners [⟨0, "a", 1⟩, ⟨0, "a", 1⟩, ⟨1, "b", 2⟩]
          [⟨0, "a", 1⟩, ⟨2, "c", 3⟩]).2 =
      ((removeEventListeners [⟨0, "a", 1⟩, ⟨0, "a", 1⟩, ⟨1, "b", 2⟩]
          [⟨0, "a", 1⟩, ⟨2, "c", 3⟩]).1, []) :=
  removeEventListeners_spec [⟨0, "a", 1⟩, ⟨0, "a", 1⟩, ⟨1, "b", 2⟩]
    [⟨0, "a", 1⟩, ⟨2, "c", 3⟩] (by decide)
